import Mathlib

/-!
Shallow embedding of the fusion-search core of the vector-search
application, together with theorems settling the specification claims.

Embedded source files:
  * scripts/parallel_search_fusion.py  (SimplifiedParallelSearch)
  * scripts/indexing.py                (reciprocal_rank_fusion)
  * scripts/partno_classifier.py       (PartNumberClassifier)

Relevance scores are modelled as rationals; the Python code uses IEEE
floats but every claim is about comparisons and exact arithmetic on
score constants, which the rational model reflects faithfully.
External collaborators (Qdrant client, fastembed model) are modelled as
explicit inputs: a store response is an `Except` value, `.error`
standing for a raised exception.
-/

namespace VectorSearchApp

/-- Payload of a stored point: a key-value record (dict in Python). -/
abbrev Payload := List (String × String)

/-- Lookup of a key in a payload, mirroring `payload.get(key)`. -/
def payloadGet (p : Payload) (key : String) : Option String :=
  (p.find? (fun kv => kv.1 == key)).map (fun kv => kv.2)

/-- The `SearchResult` dataclass of parallel_search_fusion.py. -/
structure SearchResult where
  id : String
  score : ℚ
  payload : Payload
  search_type : String
  qdrant_id : Option String
  boost_factor : ℚ
deriving DecidableEq

/-- A point returned by `client.scroll` (exact search): id plus payload. -/
structure ScrollPoint where
  id : String
  payload : Payload
deriving DecidableEq

/-- A point returned by `client.query_points` (vector search): id, score, payload. -/
structure QueryPoint where
  id : String
  score : ℚ
  payload : Payload
deriving DecidableEq

/-! ## SimplifiedParallelSearch._get_embedding_cached

The Python body wraps the embedder call in try/except: on success it
returns the embedding, on any exception it prints and returns
`tuple([0.0] * 384)`.  The embedder outcome is the explicit argument. -/

/-- Embedding of `_get_embedding_cached`: the embedder outcome comes in as
an `Except`; the function itself never raises, returning the 384-dim zero
vector when the embedder failed. -/
def get_embedding_cached (embed : Except String (List ℚ)) : Except String (List ℚ) :=
  match embed with
  | Except.ok v => Except.ok v
  | Except.error _ => Except.ok (List.replicate 384 (0 : ℚ))

/-! ## SimplifiedParallelSearch.exact_search_async

The field list is `search_fields`; for each field the client is asked for
an exact match on the cleaned query, capped at `min(count, 10)`.  A field
whose lookup raises is skipped (`continue`).  After a field's results are
appended, the loop breaks when results are nonempty and the field's tag
is "exact".  The store is modelled as a function from field name, match
value and limit to an `Except` response; the embedding also returns the
list of fields actually queried, in order, so that the short-circuit
behaviour is observable. -/

/-- The `search_fields` table: (field name, normalized score, search type). -/
def search_fields : List (String × ℚ × String) :=
  [("partNumber_airgas_text", 1, "exact"),
   ("manufacturerPartNumber_text", 9/10, "exact_mfg")]

/-- Building one `SearchResult` from a scroll point (exact search loop body). -/
def mkExactResult (ns : ℚ) (st : String) (point : ScrollPoint) : SearchResult :=
  { id := (payloadGet point.payload "partNumber_airgas_text").getD point.id
    score := ns
    payload := point.payload
    search_type := st
    qdrant_id := some point.id
    boost_factor := 1 }

/-- A store for exact lookups: field name, match value, limit ↦ response. -/
abbrev ExactStore := String → String → Nat → Except String (List ScrollPoint)

/-- The field loop of `exact_search_async`, returning the accumulated
results and the list of fields queried (for the short-circuit property). -/
def exactFieldLoop (store : ExactStore) (clean : String) (count : Nat) :
    List (String × ℚ × String) → List SearchResult → List SearchResult × List String
  | [], results => (results, [])
  | (field, ns, st) :: rest, results =>
      match store field clean (min count 10) with
      | Except.error _ =>
          let r := exactFieldLoop store clean count rest results
          (r.1, field :: r.2)
      | Except.ok pts =>
          let results2 := results ++ pts.map (mkExactResult ns st)
          if results2 ≠ [] ∧ st == "exact" then (results2, [field])
          else
            let r := exactFieldLoop store clean count rest results2
            (r.1, field :: r.2)

/-- Embedding of `exact_search_async`: cleans the query
(`query.strip().upper()` modelled as given, see `cleanQuery`), then runs
the field loop over `search_fields`. -/
def exact_search (store : ExactStore) (clean : String) (count : Nat) :
    List SearchResult × List String :=
  exactFieldLoop store clean count search_fields []

/-! ## SimplifiedParallelSearch.vector_search_async

The qdrant response is the explicit argument (`Except`, since the whole
body is wrapped in try/except returning the accumulated — hence empty —
result list on exception).  Points with score below 0.4 are dropped. -/

/-- Building one `SearchResult` from a vector query point. -/
def mkVectorResult (point : QueryPoint) : SearchResult :=
  { id := (payloadGet point.payload "partNumber_airgas_text").getD point.id
    score := point.score
    payload := point.payload
    search_type := "vector"
    qdrant_id := some point.id
    boost_factor := 1 }

/-- Embedding of `vector_search_async`: on an exception the accumulated
empty list is returned; otherwise points scoring at least 0.4 are kept. -/
def vector_search (resp : Except String (List QueryPoint)) : List SearchResult :=
  match resp with
  | Except.error _ => []
  | Except.ok pts => (pts.filter (fun p => (2 : ℚ)/5 ≤ p.score)).map mkVectorResult

/-! ## SimplifiedParallelSearch.simple_fusion

The Python walks `exact_results + vector_results` once, keeping a dict
`seen_ids` and a list `fused_results` that always hold the same objects:
a fresh id is appended; a duplicate id either replaces the stored entry
(strictly greater score) or mutates the stored entry's search_type.  In
both duplicate branches the surviving entry's search_type becomes
`existing.search_type ++ "+" ++ new.search_type`.  Since ids in the
accumulator are unique (an invariant proved below), replacing the single
entry with the matching id is expressed as a map over the accumulator. -/

/-- One step of the dedup walk in `simple_fusion`: a fresh id is appended
at the end; for a duplicate id the (unique) stored entry with that id is
replaced by the new hit when its score is strictly greater, and otherwise
kept, the surviving entry's search_type recording both provenances. -/
def fuseStep (acc : List SearchResult) (r : SearchResult) : List SearchResult :=
  match acc with
  | [] => [r]
  | e :: rest =>
      if e.id == r.id then
        (if r.score > e.score then
          { r with search_type := e.search_type ++ "+" ++ r.search_type }
        else
          { e with search_type := e.search_type ++ "+" ++ r.search_type }) :: rest
      else e :: fuseStep rest r

/-- The dedup walk over the concatenation `exact_results + vector_results`. -/
def fuseAll (exact_results vector_results : List SearchResult) : List SearchResult :=
  (exact_results ++ vector_results).foldl fuseStep []

/-- Embedding of `simple_fusion`: dedup walk, then the stable sort by
score descending (`fused_results.sort(key=..., reverse=True)`). -/
def simple_fusion (exact_results vector_results : List SearchResult) : List SearchResult :=
  (fuseAll exact_results vector_results).mergeSort (fun a b => decide (b.score ≤ a.score))

/-! ## SimplifiedParallelSearch.parallel_search

Runs the exact search (candidate pool `count`) and the vector search
(candidate pool `count * 2`, reflected in the response argument), fuses,
and truncates to `count`.  Timing statistics are out of scope. -/

/-- Embedding of `parallel_search`: both sub-searches, fusion, truncation. -/
def parallel_search (store : ExactStore) (vecResp : Except String (List QueryPoint))
    (clean : String) (count : Nat) : List SearchResult :=
  let exact_results := (exact_search store clean count).1
  let vector_results := vector_search vecResp
  (simple_fusion exact_results vector_results).take count

/-! ## Lemmas about the dedup walk -/

/-- The score stored for id `i` in an accumulator (via the first entry
with that id, which is unique under the no-duplicate invariant). -/
def scoreOf (acc : List SearchResult) (i : String) : Option ℚ :=
  (acc.find? (fun e => e.id == i)).map (fun e => e.score)

theorem fuseStep_map_id (acc : List SearchResult) (r : SearchResult) :
    (fuseStep acc r).map SearchResult.id =
      if acc.any (fun e => e.id == r.id) then acc.map SearchResult.id
      else acc.map SearchResult.id ++ [r.id] := by
  induction acc with
  | nil => simp [fuseStep]
  | cons e rest ih =>
      by_cases h : e.id = r.id
      · simp only [fuseStep, h, beq_self_eq_true, if_true, List.map_cons, List.any_cons,
          Bool.true_or]
        split <;> simp [h]
      · have hb : (e.id == r.id) = false := beq_eq_false_iff_ne.mpr h
        simp only [fuseStep, hb, Bool.false_eq_true, if_false, List.map_cons, List.any_cons,
          Bool.false_or, ih]
        split <;> simp

theorem fuseStep_length (acc : List SearchResult) (r : SearchResult) :
    (fuseStep acc r).length ≤ acc.length + 1 := by
  induction acc with
  | nil => simp [fuseStep]
  | cons e rest ih =>
      simp only [fuseStep]
      split
      · simp
      · simpa using Nat.succ_le_succ ih

theorem fuseStep_nodup_id (acc : List SearchResult) (r : SearchResult)
    (h : (acc.map SearchResult.id).Nodup) :
    ((fuseStep acc r).map SearchResult.id).Nodup := by
  rw [fuseStep_map_id]
  split
  · exact h
  · rename_i hany
    rw [List.nodup_append]
    refine ⟨h, List.nodup_singleton _, ?_⟩
    intro a ha hb
    simp only [List.mem_singleton] at hb
    subst hb
    simp only [List.mem_map] at ha
    obtain ⟨e, he, hid⟩ := ha
    rw [List.any_eq_true] at hany
    exact hany ⟨e, he, by simp [hid]⟩

theorem foldl_fuseStep_length (l : List SearchResult) (acc : List SearchResult) :
    (l.foldl fuseStep acc).length ≤ acc.length + l.length := by
  induction l generalizing acc with
  | nil => simp
  | cons r rest ih =>
      calc ((r :: rest).foldl fuseStep acc).length
          = (rest.foldl fuseStep (fuseStep acc r)).length := by simp [List.foldl_cons]
        _ ≤ (fuseStep acc r).length + rest.length := ih _
        _ ≤ acc.length + 1 + rest.length := by
              exact Nat.add_le_add_right (fuseStep_length acc r) _
        _ = acc.length + (r :: rest).length := by simp; omega

theorem foldl_fuseStep_nodup_id (l : List SearchResult) (acc : List SearchResult)
    (h : (acc.map SearchResult.id).Nodup) :
    ((l.foldl fuseStep acc).map SearchResult.id).Nodup := by
  induction l generalizing acc with
  | nil => simpa using h
  | cons r rest ih =>
      simpa [List.foldl_cons] using ih (fuseStep acc r) (fuseStep_nodup_id acc r h)

theorem scoreOf_fuseStep_self (acc : List SearchResult) (r : SearchResult) :
    scoreOf (fuseStep acc r) r.id =
      match scoreOf acc r.id with
      | none => some r.score
      | some s => some (max s r.score) := by
  induction acc with
  | nil => simp [fuseStep, scoreOf]
  | cons e rest ih =>
      by_cases h : e.id = r.id
      · simp only [fuseStep, h, beq_self_eq_true, if_true]
        rcases le_or_lt r.score e.score with hle | hlt
        · have : ¬ r.score > e.score := not_lt.mpr hle
          simp [scoreOf, this, h, max_eq_left hle]
        · simp [scoreOf, hlt, h, max_eq_right hlt.le]
      · have hb : (e.id == r.id) = false := beq_eq_false_iff_ne.mpr h
        simp only [fuseStep, hb, Bool.false_eq_true, if_false]
        simpa [scoreOf, hb] using ih

theorem scoreOf_fuseStep_other (acc : List SearchResult) (r : SearchResult) (i : String)
    (h : r.id ≠ i) : scoreOf (fuseStep acc r) i = scoreOf acc i := by
  induction acc with
  | nil => simp [fuseStep, scoreOf, beq_eq_false_iff_ne.mpr h]
  | cons e rest ih =>
      by_cases he : e.id = r.id
      · have h2 : (e.id == i) = false := beq_eq_false_iff_ne.mpr (he ▸ h)
        simp only [fuseStep, he, beq_self_eq_true, if_true]
        split <;> simp [scoreOf, h2, beq_eq_false_iff_ne.mpr h, he]
      · have hb : (e.id == r.id) = false := beq_eq_false_iff_ne.mpr he
        simp only [fuseStep, hb, Bool.false_eq_true, if_false]
        by_cases h3 : e.id = i
        · simp [scoreOf, h3]
        · simp only [scoreOf, List.find?_cons, beq_eq_false_iff_ne.mpr h3] at ih ⊢
          exact ih

theorem scoreOf_foldl_not_mem (l : List SearchResult) (acc : List SearchResult) (i : String)
    (h : ∀ r ∈ l, r.id ≠ i) : scoreOf (l.foldl fuseStep acc) i = scoreOf acc i := by
  induction l generalizing acc with
  | nil => simp
  | cons r rest ih =>
      rw [List.foldl_cons, ih _ (fun x hx => h x (List.mem_cons_of_mem r hx)),
        scoreOf_fuseStep_other acc r i (h r (List.mem_cons_self r rest))]

theorem scoreOf_foldl_single (l1 l2 : List SearchResult) (x : SearchResult)
    (acc : List SearchResult) (i : String) (hx : x.id = i)
    (h1 : ∀ r ∈ l1, r.id ≠ i) (h2 : ∀ r ∈ l2, r.id ≠ i) :
    scoreOf ((l1 ++ x :: l2).foldl fuseStep acc) i =
      match scoreOf acc i with
      | none => some x.score
      | some s => some (max s x.score) := by
  subst hx
  rw [List.foldl_append, List.foldl_cons, scoreOf_foldl_not_mem l2 _ _ h2,
    scoreOf_fuseStep_self, scoreOf_foldl_not_mem l1 acc _ h1]

/-! ## Claim theorems for the simple fusion -/

/-- C1: for every pair of input lists, the simple fusion output contains
each hit id at most once and its length is at most the sum of the two
input lengths; the list `parallel_search` returns to its caller has
length at most the requested candidate count. -/
theorem fusion_dedup_invariant (exact_results vector_results : List SearchResult)
    (store : ExactStore) (vecResp : Except String (List QueryPoint))
    (clean : String) (count : Nat) :
    ((simple_fusion exact_results vector_results).map SearchResult.id).Nodup ∧
    (simple_fusion exact_results vector_results).length ≤
      exact_results.length + vector_results.length ∧
    (parallel_search store vecResp clean count).length ≤ count := by
  have hperm := List.mergeSort_perm (fuseAll exact_results vector_results)
      (fun a b => decide (b.score ≤ a.score))
  refine ⟨?_, ?_, ?_⟩
  · have h := foldl_fuseStep_nodup_id (exact_results ++ vector_results) [] (by simp)
    exact ((hperm.map SearchResult.id).nodup_iff).mpr h
  · have h := foldl_fuseStep_length (exact_results ++ vector_results) []
    calc (simple_fusion exact_results vector_results).length
        = (fuseAll exact_results vector_results).length := hperm.length_eq
      _ ≤ exact_results.length + vector_results.length := by
            simpa [fuseAll] using h
  · exact List.length_take_le count _

/-- C2: an id occurring once in the exact input list and once in the
vector input list appears in the fused output, and the score of its
single fused hit equals the maximum of the exact score and the vector
score. -/
theorem fusion_max_score (e1 e2 v1 v2 : List SearchResult) (x y : SearchResult) (i : String)
    (hx : x.id = i) (hy : y.id = i)
    (he1 : ∀ r ∈ e1, r.id ≠ i) (he2 : ∀ r ∈ e2, r.id ≠ i)
    (hv1 : ∀ r ∈ v1, r.id ≠ i) (hv2 : ∀ r ∈ v2, r.id ≠ i) :
    (∃ r ∈ simple_fusion (e1 ++ x :: e2) (v1 ++ y :: v2),
        r.id = i ∧ r.score = max x.score y.score) ∧
    (∀ r ∈ simple_fusion (e1 ++ x :: e2) (v1 ++ y :: v2),
        r.id = i → r.score = max x.score y.score) := by
  have hfirst : scoreOf ((e1 ++ x :: e2).foldl fuseStep []) i = some x.score := by
    have h := scoreOf_foldl_single e1 e2 x [] i hx he1 he2
    simpa [scoreOf] using h
  have hL : scoreOf (fuseAll (e1 ++ x :: e2) (v1 ++ y :: v2)) i =
      some (max x.score y.score) := by
    unfold fuseAll
    rw [List.foldl_append]
    rw [scoreOf_foldl_single v1 v2 y ((e1 ++ x :: e2).foldl fuseStep []) i hy hv1 hv2, hfirst]
  obtain ⟨e, hfind, hescore⟩ :
      ∃ e, (fuseAll (e1 ++ x :: e2) (v1 ++ y :: v2)).find? (fun r => r.id == i) = some e ∧
        e.score = max x.score y.score := by
    unfold scoreOf at hL
    cases hf : (fuseAll (e1 ++ x :: e2) (v1 ++ y :: v2)).find? (fun r => r.id == i) with
    | none => rw [hf] at hL; simp at hL
    | some e => rw [hf] at hL; simp at hL
                exact ⟨e, rfl, hL⟩
  have heid : e.id = i := by
    have := List.find?_some hfind
    simpa using this
  have hmem : e ∈ fuseAll (e1 ++ x :: e2) (v1 ++ y :: v2) :=
    List.mem_of_find?_eq_some hfind
  have hperm := List.mergeSort_perm (fuseAll (e1 ++ x :: e2) (v1 ++ y :: v2))
      (fun a b => decide (b.score ≤ a.score))
  have hnodup : ((fuseAll (e1 ++ x :: e2) (v1 ++ y :: v2)).map SearchResult.id).Nodup :=
    foldl_fuseStep_nodup_id _ [] (by simp)
  constructor
  · exact ⟨e, hperm.mem_iff.mpr hmem, heid, hescore⟩
  · intro r hr hrid
    have hr2 : r ∈ fuseAll (e1 ++ x :: e2) (v1 ++ y :: v2) := hperm.mem_iff.mp hr
    have : r = e := List.inj_on_of_nodup_map hnodup hr2 hmem (by rw [hrid, heid])
    rw [this, hescore]

/-- Witness for C2 at a concrete input: the id A occurs with score 1 in
the exact list and score 1/2 in the vector list. -/
theorem fusion_max_score_witness :
    (∃ r ∈ simple_fusion [(⟨"A", 1, [], "exact", none, 1⟩ : SearchResult)]
        [(⟨"A", 1/2, [], "vector", none, 1⟩ : SearchResult)],
        r.id = "A" ∧ r.score = max (1 : ℚ) (1/2)) ∧
    (∀ r ∈ simple_fusion [(⟨"A", 1, [], "exact", none, 1⟩ : SearchResult)]
        [(⟨"A", 1/2, [], "vector", none, 1⟩ : SearchResult)],
        r.id = "A" → r.score = max (1 : ℚ) (1/2)) :=
  fusion_max_score [] [] [] [] ⟨"A", 1, [], "exact", none, 1⟩ ⟨"A", 1/2, [], "vector", none, 1⟩
    "A" rfl rfl (by simp) (by simp) (by simp) (by simp)

/-- C3: when a duplicate id arrives whose score is not strictly greater
than the stored hit's score, the stored hit survives with its searchType
rewritten to storedType+newType and its score and payload unchanged. -/
theorem fusion_tie_keeps_existing (acc : List SearchResult) (r e : SearchResult)
    (hfind : acc.find? (fun x => x.id == r.id) = some e) (hle : ¬ r.score > e.score) :
    ∃ e2, (fuseStep acc r).find? (fun x => x.id == r.id) = some e2 ∧
      e2.search_type = e.search_type ++ "+" ++ r.search_type ∧
      e2.score = e.score ∧ e2.payload = e.payload := by
  induction acc with
  | nil => simp at hfind
  | cons a rest ih =>
      by_cases h : a.id = r.id
      · have hb : (a.id == r.id) = true := beq_iff_eq.mpr h
        rw [List.find?_cons, hb] at hfind
        simp only [Option.some_inj] at hfind
        subst hfind
        refine ⟨{ a with search_type := a.search_type ++ "+" ++ r.search_type }, ?_, rfl, rfl, rfl⟩
        simp [fuseStep, hb, hle, List.find?_cons]
      · have hb : (a.id == r.id) = false := beq_eq_false_iff_ne.mpr h
        rw [List.find?_cons, hb] at hfind
        obtain ⟨e2, he2, hrest⟩ := ih hfind
        exact ⟨e2, by simp [fuseStep, hb, List.find?_cons, he2], hrest⟩

/-- Witness for C3 at a concrete input: stored hit with score 1, new hit
with equal id and score 1/2. -/
theorem fusion_tie_keeps_existing_witness :
    ∃ e2, (fuseStep [(⟨"A", 1, [("k", "v")], "exact", none, 1⟩ : SearchResult)]
        ⟨"A", 1/2, [], "vector", none, 1⟩).find?
        (fun x => x.id == (⟨"A", (1 : ℚ)/2, [], "vector", none, 1⟩ : SearchResult).id) = some e2 ∧
      e2.search_type = "exact" ++ "+" ++ "vector" ∧
      e2.score = (1 : ℚ) ∧ e2.payload = [("k", "v")] :=
  fusion_tie_keeps_existing [⟨"A", 1, [("k", "v")], "exact", none, 1⟩]
    ⟨"A", 1/2, [], "vector", none, 1⟩ ⟨"A", 1, [("k", "v")], "exact", none, 1⟩
    (by simp) (by norm_num)

/-! ## Claim theorems: embedding failure, short-circuit, relevance floor, timeout -/

/-- C4 counterexample: when the embedder call fails, the cached embedding
lookup does not propagate the error; it substitutes the 384-dimensional
zero vector as a fallback. -/
theorem embedding_error_counterexample :
    get_embedding_cached (Except.error "boom") = Except.ok (List.replicate 384 (0 : ℚ)) ∧
    get_embedding_cached (Except.error "boom") ≠ Except.error "boom" := by
  exact ⟨rfl, fun h => Except.noConfusion h⟩

/-- C4 amended: on embedder failure the cached embedding lookup catches
the exception and returns the 384-dimensional zero vector; no embedding
error reaches the caller. -/
theorem embedding_error_fallback (msg : String) :
    get_embedding_cached (Except.error msg) = Except.ok (List.replicate 384 (0 : ℚ)) := rfl

/-- C6: if the primary identifier field lookup returns at least one hit,
the exact search queries no further field; if it returns no hits, the
manufacturer field is queried as well. -/
theorem exact_search_short_circuit (store : ExactStore) (clean : String) (count : Nat)
    (pts : List ScrollPoint)
    (hprim : store "partNumber_airgas_text" clean (min count 10) = Except.ok pts) :
    (pts ≠ [] → (exact_search store clean count).2 = ["partNumber_airgas_text"]) ∧
    (pts = [] → (exact_search store clean count).2 =
      ["partNumber_airgas_text", "manufacturerPartNumber_text"]) := by
  constructor
  · intro hne
    have hmap : List.map (mkExactResult 1 "exact") pts ≠ [] := by simpa using hne
    simp only [exact_search, search_fields, exactFieldLoop, hprim]
    simp [hmap]
  · intro hemp
    subst hemp
    cases hsec : store "manufacturerPartNumber_text" clean (min count 10) with
    | error e =>
        simp only [exact_search, search_fields, exactFieldLoop, hprim, hsec]
        simp
    | ok pts2 =>
        simp only [exact_search, search_fields, exactFieldLoop, hprim, hsec]
        simp

/-- Witness for C6 at a concrete store: the primary field yields one hit,
so only the primary field appears in the query log. -/
theorem exact_search_short_circuit_witness :
    (exact_search
      (fun f _ _ => if f == "partNumber_airgas_text"
        then Except.ok [(⟨"P1", []⟩ : ScrollPoint)] else Except.ok []) "Q" 5).2 =
      ["partNumber_airgas_text"] :=
  (exact_search_short_circuit
    (fun f _ _ => if f == "partNumber_airgas_text"
      then Except.ok [(⟨"P1", []⟩ : ScrollPoint)] else Except.ok []) "Q" 5
    [⟨"P1", []⟩] rfl).1 (by simp)

/-- C7: a hit returned by the vector index appears in the vector search
output if and only if its similarity score is at least the fixed
threshold 0.4 (= 2/5). -/
theorem vector_relevance_floor (pts : List QueryPoint) (p : QueryPoint) (hp : p ∈ pts) :
    (mkVectorResult p ∈ vector_search (Except.ok pts) ↔ (2 : ℚ)/5 ≤ p.score) := by
  constructor
  · intro h
    simp only [vector_search, List.mem_map] at h
    obtain ⟨q, hq, hqp⟩ := h
    have hscore : q.score = p.score := congrArg SearchResult.score hqp
    rw [List.mem_filter] at hq
    have h2 : (2 : ℚ)/5 ≤ q.score := by simpa using hq.2
    rw [hscore] at h2
    exact h2
  · intro h
    simp only [vector_search, List.mem_map]
    exact ⟨p, List.mem_filter.mpr ⟨hp, by simpa using h⟩, rfl⟩

/-- Witness for C7 at a concrete response: a hit scored 0.41 is included
and a hit scored 0.39 is excluded. -/
theorem vector_relevance_floor_witness :
    (mkVectorResult ⟨"b", 41/100, []⟩ ∈
        vector_search (Except.ok [⟨"a", 39/100, []⟩, ⟨"b", 41/100, []⟩]) ↔
      (2 : ℚ)/5 ≤ 41/100) ∧
    (mkVectorResult ⟨"a", 39/100, []⟩ ∈
        vector_search (Except.ok [⟨"a", 39/100, []⟩, ⟨"b", 41/100, []⟩]) ↔
      (2 : ℚ)/5 ≤ 39/100) :=
  ⟨vector_relevance_floor _ _ (by simp), vector_relevance_floor _ _ (by simp)⟩

/-- C8 counterexample: a timeout raised inside the vector query is caught
and converted into an empty result list; parallel_search then returns the
very same empty list it returns for a genuine zero-result response, so
the caller cannot distinguish the two. -/
theorem timeout_counterexample :
    vector_search (Except.error "TimeoutError") = vector_search (Except.ok []) ∧
    parallel_search (fun _ _ _ => Except.ok []) (Except.error "TimeoutError") "q" 10 = [] ∧
    parallel_search (fun _ _ _ => Except.ok []) (Except.ok []) "q" 10 = [] := by
  refine ⟨rfl, ?_, ?_⟩ <;>
    simp only [parallel_search, exact_search, search_fields, exactFieldLoop, vector_search,
      simple_fusion, fuseAll, List.map_nil, List.append_nil, List.nil_append, List.foldl_nil,
      List.mergeSort_nil, List.take_nil, List.filter_nil, ne_eq, not_true_eq_false,
      false_and, if_false]

/-- C8 amended: any exception in the vector query, a timeout included, is
swallowed: parallel_search returns the same successful result list it
would return had the vector search found nothing, and no timeout error is
surfaced. -/
theorem timeout_swallowed (store : ExactStore) (msg clean : String) (count : Nat) :
    parallel_search store (Except.error msg) clean count =
      parallel_search store (Except.ok []) clean count := rfl

/-! ## reciprocal_rank_fusion (scripts/indexing.py)

The Python builds a dict `fused_scores` keyed by doc id.  The dense loop
creates an entry (rrf_score 0, dense_rank = rank, dense_score) for a
fresh id, then adds `1/(k+rank)` to the entry's rrf_score.  The sparse
loop creates an entry for a fresh id, or records sparse_rank/sparse_score
on an existing one, then adds `1/(k+rank)`.  The dict is an association
list here, and as in `fuseStep` the first (unique) entry with a given key
is the one updated. -/

/-- The per-id accumulator entry of `reciprocal_rank_fusion`. -/
structure RRFEntry where
  rrf_score : ℚ
  dense_rank : Nat
  sparse_rank : Nat
  dense_score : ℚ
  sparse_score : ℚ
  point : QueryPoint
deriving DecidableEq

/-- Dense-loop body at 1-indexed `rank`: create the entry if the id is
fresh, then add the reciprocal-rank contribution. -/
def denseUpd (k : ℚ) (rank : Nat) (p : QueryPoint) :
    List (String × RRFEntry) → List (String × RRFEntry)
  | [] => [(p.id, ⟨1/(k + (rank : ℚ)), rank, 0, p.score, 0, p⟩)]
  | (i, e) :: rest =>
      if i == p.id then
        (i, { e with rrf_score := e.rrf_score + 1/(k + (rank : ℚ)) }) :: rest
      else (i, e) :: denseUpd k rank p rest

/-- Sparse-loop body at 1-indexed `rank`: create the entry if the id is
fresh, otherwise record the sparse rank and score; in both cases add the
reciprocal-rank contribution. -/
def sparseUpd (k : ℚ) (rank : Nat) (p : QueryPoint) :
    List (String × RRFEntry) → List (String × RRFEntry)
  | [] => [(p.id, ⟨1/(k + (rank : ℚ)), 0, rank, 0, p.score, p⟩)]
  | (i, e) :: rest =>
      if i == p.id then
        (i, { e with sparse_rank := rank, sparse_score := p.score,
                     rrf_score := e.rrf_score + 1/(k + (rank : ℚ)) }) :: rest
      else (i, e) :: sparseUpd k rank p rest

/-- The dense loop: `for rank, point in enumerate(dense_results.points, 1)`. -/
def denseLoop (k : ℚ) : List QueryPoint → Nat → List (String × RRFEntry) →
    List (String × RRFEntry)
  | [], _, acc => acc
  | p :: rest, rank, acc => denseLoop k rest (rank + 1) (denseUpd k rank p acc)

/-- The sparse loop: `for rank, point in enumerate(sparse_results.points, 1)`. -/
def sparseLoop (k : ℚ) : List QueryPoint → Nat → List (String × RRFEntry) →
    List (String × RRFEntry)
  | [], _, acc => acc
  | p :: rest, rank, acc => sparseLoop k rest (rank + 1) (sparseUpd k rank p acc)

/-- The fully accumulated `fused_scores` dict. -/
def rrf_fused_scores (k : ℚ) (dense sparse : List QueryPoint) : List (String × RRFEntry) :=
  sparseLoop k sparse 1 (denseLoop k dense 1 [])

/-- Embedding of `reciprocal_rank_fusion`: accumulate, sort by rrf_score
descending, truncate to `limit`, and write the fused score into each
output point. -/
def reciprocal_rank_fusion (dense sparse : List QueryPoint) (k : ℚ) (limit : Nat) :
    List QueryPoint :=
  (((rrf_fused_scores k dense sparse).mergeSort
      (fun a b => decide (b.2.rrf_score ≤ a.2.rrf_score))).take limit).map
    (fun q => { q.2.point with score := q.2.rrf_score })

/-- The accumulated rrf score for id `i` in the dict. -/
def rrfScoreOf (acc : List (String × RRFEntry)) (i : String) : Option ℚ :=
  (acc.find? (fun q => q.1 == i)).map (fun q => q.2.rrf_score)

theorem rrfScoreOf_denseUpd_self (k : ℚ) (rank : Nat) (p : QueryPoint)
    (acc : List (String × RRFEntry)) :
    rrfScoreOf (denseUpd k rank p acc) p.id =
      match rrfScoreOf acc p.id with
      | none => some (1/(k + (rank : ℚ)))
      | some s => some (s + 1/(k + (rank : ℚ))) := by
  induction acc with
  | nil => simp [denseUpd, rrfScoreOf]
  | cons q rest ih =>
      obtain ⟨i, e⟩ := q
      by_cases h : i = p.id
      · simp [denseUpd, rrfScoreOf, h]
      · have hb : (i == p.id) = false := beq_eq_false_iff_ne.mpr h
        simp only [denseUpd, hb, Bool.false_eq_true, if_false]
        simpa [rrfScoreOf, hb] using ih

theorem rrfScoreOf_sparseUpd_self (k : ℚ) (rank : Nat) (p : QueryPoint)
    (acc : List (String × RRFEntry)) :
    rrfScoreOf (sparseUpd k rank p acc) p.id =
      match rrfScoreOf acc p.id with
      | none => some (1/(k + (rank : ℚ)))
      | some s => some (s + 1/(k + (rank : ℚ))) := by
  induction acc with
  | nil => simp [sparseUpd, rrfScoreOf]
  | cons q rest ih =>
      obtain ⟨i, e⟩ := q
      by_cases h : i = p.id
      · simp [sparseUpd, rrfScoreOf, h]
      · have hb : (i == p.id) = false := beq_eq_false_iff_ne.mpr h
        simp only [sparseUpd, hb, Bool.false_eq_true, if_false]
        simpa [rrfScoreOf, hb] using ih

theorem rrfScoreOf_denseUpd_other (k : ℚ) (rank : Nat) (p : QueryPoint)
    (acc : List (String × RRFEntry)) (i : String) (h : p.id ≠ i) :
    rrfScoreOf (denseUpd k rank p acc) i = rrfScoreOf acc i := by
  induction acc with
  | nil => simp [denseUpd, rrfScoreOf, beq_eq_false_iff_ne.mpr h]
  | cons q rest ih =>
      obtain ⟨j, e⟩ := q
      by_cases hj : j = p.id
      · subst hj
        have hji : (p.id == i) = false := beq_eq_false_iff_ne.mpr h
        simp [denseUpd, rrfScoreOf, hji]
      · have hb : (j == p.id) = false := beq_eq_false_iff_ne.mpr hj
        by_cases h3 : j = i
        · subst h3
          simp [denseUpd, rrfScoreOf, hb]
        · have h4 : (j == i) = false := beq_eq_false_iff_ne.mpr h3
          simp only [denseUpd, hb, Bool.false_eq_true, if_false]
          simpa [rrfScoreOf, h4] using ih

theorem rrfScoreOf_sparseUpd_other (k : ℚ) (rank : Nat) (p : QueryPoint)
    (acc : List (String × RRFEntry)) (i : String) (h : p.id ≠ i) :
    rrfScoreOf (sparseUpd k rank p acc) i = rrfScoreOf acc i := by
  induction acc with
  | nil => simp [sparseUpd, rrfScoreOf, beq_eq_false_iff_ne.mpr h]
  | cons q rest ih =>
      obtain ⟨j, e⟩ := q
      by_cases hj : j = p.id
      · subst hj
        have hji : (p.id == i) = false := beq_eq_false_iff_ne.mpr h
        simp [sparseUpd, rrfScoreOf, hji]
      · have hb : (j == p.id) = false := beq_eq_false_iff_ne.mpr hj
        by_cases h3 : j = i
        · subst h3
          simp [sparseUpd, rrfScoreOf, hb]
        · have h4 : (j == i) = false := beq_eq_false_iff_ne.mpr h3
          simp only [sparseUpd, hb, Bool.false_eq_true, if_false]
          simpa [rrfScoreOf, h4] using ih

theorem rrfScoreOf_denseLoop_not_mem (k : ℚ) (l : List QueryPoint) (r0 : Nat)
    (acc : List (String × RRFEntry)) (i : String) (h : ∀ p ∈ l, p.id ≠ i) :
    rrfScoreOf (denseLoop k l r0 acc) i = rrfScoreOf acc i := by
  induction l generalizing r0 acc with
  | nil => simp [denseLoop]
  | cons p rest ih =>
      rw [denseLoop, ih (r0 + 1) _ (fun x hx => h x (List.mem_cons_of_mem p hx)),
        rrfScoreOf_denseUpd_other k r0 p acc i (h p (List.mem_cons_self p rest))]

theorem rrfScoreOf_sparseLoop_not_mem (k : ℚ) (l : List QueryPoint) (r0 : Nat)
    (acc : List (String × RRFEntry)) (i : String) (h : ∀ p ∈ l, p.id ≠ i) :
    rrfScoreOf (sparseLoop k l r0 acc) i = rrfScoreOf acc i := by
  induction l generalizing r0 acc with
  | nil => simp [sparseLoop]
  | cons p rest ih =>
      rw [sparseLoop, ih (r0 + 1) _ (fun x hx => h x (List.mem_cons_of_mem p hx)),
        rrfScoreOf_sparseUpd_other k r0 p acc i (h p (List.mem_cons_self p rest))]

theorem rrfScoreOf_denseLoop_single (k : ℚ) (d1 d2 : List QueryPoint) (x : QueryPoint)
    (r0 : Nat) (acc : List (String × RRFEntry)) (i : String) (hx : x.id = i)
    (h1 : ∀ p ∈ d1, p.id ≠ i) (h2 : ∀ p ∈ d2, p.id ≠ i) :
    rrfScoreOf (denseLoop k (d1 ++ x :: d2) r0 acc) i =
      match rrfScoreOf acc i with
      | none => some (1/(k + ((r0 + d1.length : Nat) : ℚ)))
      | some s => some (s + 1/(k + ((r0 + d1.length : Nat) : ℚ))) := by
  induction d1 generalizing r0 acc with
  | nil =>
      subst hx
      rw [List.nil_append, denseLoop, rrfScoreOf_denseLoop_not_mem k d2 _ _ _ h2,
        rrfScoreOf_denseUpd_self]
      simp
  | cons q d1t ih =>
      have hq : q.id ≠ i := h1 q (List.mem_cons_self q d1t)
      rw [List.cons_append, denseLoop,
        ih (r0 + 1) _ (fun x hx => h1 x (List.mem_cons_of_mem q hx)),
        rrfScoreOf_denseUpd_other k r0 q acc i hq]
      have harith : r0 + 1 + d1t.length = r0 + (q :: d1t).length := by
        simp
        omega
      rw [harith]

theorem rrfScoreOf_sparseLoop_single (k : ℚ) (s1 s2 : List QueryPoint) (y : QueryPoint)
    (r0 : Nat) (acc : List (String × RRFEntry)) (i : String) (hy : y.id = i)
    (h1 : ∀ p ∈ s1, p.id ≠ i) (h2 : ∀ p ∈ s2, p.id ≠ i) :
    rrfScoreOf (sparseLoop k (s1 ++ y :: s2) r0 acc) i =
      match rrfScoreOf acc i with
      | none => some (1/(k + ((r0 + s1.length : Nat) : ℚ)))
      | some s => some (s + 1/(k + ((r0 + s1.length : Nat) : ℚ))) := by
  induction s1 generalizing r0 acc with
  | nil =>
      subst hy
      rw [List.nil_append, sparseLoop, rrfScoreOf_sparseLoop_not_mem k s2 _ _ _ h2,
        rrfScoreOf_sparseUpd_self]
      simp
  | cons q s1t ih =>
      have hq : q.id ≠ i := h1 q (List.mem_cons_self q s1t)
      rw [List.cons_append, sparseLoop,
        ih (r0 + 1) _ (fun x hx => h1 x (List.mem_cons_of_mem q hx)),
        rrfScoreOf_sparseUpd_other k r0 q acc i hq]
      have harith : r0 + 1 + s1t.length = r0 + (q :: s1t).length := by
        simp
        omega
      rw [harith]

/-- C5: an id at 1-indexed rank rd in the dense list and rank rs in the
sparse list receives the accumulated RRF score 1/(k+rd) + 1/(k+rs),
which strictly exceeds the score the same id receives when present in
only one of the two lists at the same rank. -/
theorem rrf_consensus (k : ℚ) (d1 d2 s1 s2 : List QueryPoint) (x y : QueryPoint)
    (i : String) (hk : 0 < k) (hx : x.id = i) (hy : y.id = i)
    (hd1 : ∀ p ∈ d1, p.id ≠ i) (hd2 : ∀ p ∈ d2, p.id ≠ i)
    (hs1 : ∀ p ∈ s1, p.id ≠ i) (hs2 : ∀ p ∈ s2, p.id ≠ i) :
    rrfScoreOf (rrf_fused_scores k (d1 ++ x :: d2) (s1 ++ y :: s2)) i =
      some (1/(k + ((d1.length : ℚ) + 1)) + 1/(k + ((s1.length : ℚ) + 1))) ∧
    rrfScoreOf (rrf_fused_scores k (d1 ++ x :: d2) []) i =
      some (1/(k + ((d1.length : ℚ) + 1))) ∧
    rrfScoreOf (rrf_fused_scores k [] (s1 ++ y :: s2)) i =
      some (1/(k + ((s1.length : ℚ) + 1))) ∧
    1/(k + ((d1.length : ℚ) + 1)) <
      1/(k + ((d1.length : ℚ) + 1)) + 1/(k + ((s1.length : ℚ) + 1)) ∧
    1/(k + ((s1.length : ℚ) + 1)) <
      1/(k + ((d1.length : ℚ) + 1)) + 1/(k + ((s1.length : ℚ) + 1)) := by
  have hcd : ((1 + d1.length : Nat) : ℚ) = (d1.length : ℚ) + 1 := by
    push_cast
    ring
  have hcs : ((1 + s1.length : Nat) : ℚ) = (s1.length : ℚ) + 1 := by
    push_cast
    ring
  have hdpos : (0 : ℚ) < 1/(k + ((d1.length : ℚ) + 1)) := by
    apply div_pos one_pos
    have : (0 : ℚ) ≤ (d1.length : ℚ) := Nat.cast_nonneg _
    linarith
  have hspos : (0 : ℚ) < 1/(k + ((s1.length : ℚ) + 1)) := by
    apply div_pos one_pos
    have : (0 : ℚ) ≤ (s1.length : ℚ) := Nat.cast_nonneg _
    linarith
  have hdense : rrfScoreOf (denseLoop k (d1 ++ x :: d2) 1 []) i =
      some (1/(k + ((d1.length : ℚ) + 1))) := by
    rw [rrfScoreOf_denseLoop_single k d1 d2 x 1 [] i hx hd1 hd2]
    simp [rrfScoreOf, hcd]
  refine ⟨?_, ?_, ?_, ?_, ?_⟩
  · unfold rrf_fused_scores
    rw [rrfScoreOf_sparseLoop_single k s1 s2 y 1 _ i hy hs1 hs2, hdense, hcs]
  · unfold rrf_fused_scores
    rw [sparseLoop, hdense]
  · unfold rrf_fused_scores
    rw [rrfScoreOf_sparseLoop_single k s1 s2 y 1 _ i hy hs1 hs2]
    simp [denseLoop, rrfScoreOf, hcs]
  · linarith
  · linarith

/-- Witness for C5 at a concrete input: k = 60, both lists of length one
sharing the id A, so both ranks are 1 and the fused score is 2/61. -/
theorem rrf_consensus_witness :
    rrfScoreOf (rrf_fused_scores 60 [⟨"A", 1/2, []⟩] [⟨"A", 1/3, []⟩]) "A" =
      some ((2 : ℚ)/61) ∧
    rrfScoreOf (rrf_fused_scores 60 [⟨"A", 1/2, []⟩] []) "A" = some ((1 : ℚ)/61) ∧
    rrfScoreOf (rrf_fused_scores 60 [] [⟨"A", 1/3, []⟩]) "A" = some ((1 : ℚ)/61) ∧
    (1 : ℚ)/61 < 2/61 := by
  have h := rrf_consensus 60 [] [] [] [] ⟨"A", 1/2, []⟩ ⟨"A", 1/3, []⟩ "A" (by norm_num)
    rfl rfl (by simp) (by simp) (by simp) (by simp)
  obtain ⟨h1, h2, h3, h4, h5⟩ := h
  norm_num at h1 h2 h3
  exact ⟨h1, h2, h3, by norm_num⟩

/-! ## PartNumberClassifier (scripts/partno_classifier.py)

Queries are modelled as lists of characters.  Python's `str.strip` /
`str.split` whitespace set and the regular expressions of the source are
translated into explicit character scans; each helper is named after the
rule it implements.  The regexes only involve literal alternatives,
character classes and greedy plus/star over classes disjoint from what
follows, so greedy scanning without backtracking is exact. -/

/-- The whitespace set of Python `str.strip()` / `str.split()` (ASCII). -/
def pySpace (c : Char) : Bool :=
  c == ' ' || c == '\t' || c == '\n' || c == '\x0d' || c == '\x0b' || c == '\x0c'

/-- `query.strip()`. -/
def pyStrip (l : List Char) : List Char :=
  ((l.dropWhile pySpace).reverse.dropWhile pySpace).reverse

/-- `cleaned.split()`: split on whitespace runs, dropping empty pieces. -/
def pySplit (l : List Char) : List (List Char) :=
  (l.splitOnP pySpace).filter (fun w => !w.isEmpty)

/-- Word characters of the regex `\b` boundary (ASCII `\w`). -/
def isWordChar (c : Char) : Bool := c.isAlpha || c.isDigit || c == '_'

/-- `cleaned.lower()`. -/
def lowerList (l : List Char) : List Char := l.map Char.toLower

/-- `cleaned.upper()`. -/
def upperList (l : List Char) : List Char := l.map Char.toUpper

/-- Whether `t` occurs at position `i` of `l`. -/
def subAt (t l : List Char) (i : Nat) : Bool := (l.drop i).take t.length == t

/-- Python substring containment `t in l`. -/
def containsSub (t l : List Char) : Bool :=
  (List.range (l.length + 1)).any (fun i => subAt t l i)

/-- The regex search `\b t \b` for an all-letter term `t`. -/
def wordMatch (t l : List Char) : Bool :=
  (List.range (l.length + 1)).any (fun i =>
    subAt t l i &&
    (i == 0 || !isWordChar (l.getD (i - 1) ' ')) &&
    (i + t.length == l.length || !isWordChar (l.getD (i + t.length) ' ')))

/-- Whether any of `terms` matches under `\b ... \b` in `low`. -/
def hasWordFrom (terms : List String) (low : List Char) : Bool :=
  terms.any (fun t => wordMatch t.toList low)

/-- `self.common_prefixes` of the classifier. -/
def common_prefixes : List String :=
  ["RAD", "PIP", "MIL", "LIN", "NOR", "MSA", "ESA", "HYP",
   "KOI", "WBU", "CBR", "HOU", "BOS", "VIC", "AMS", "E57", "NI"]

/-- `self.consumer_products`. -/
def consumer_products : List String :=
  ["iphone", "macbook", "surface", "galaxy", "kindle", "gtx"]

/-- `self.search_terms`. -/
def search_terms : List String :=
  ["how", "what", "where", "when", "why", "find", "best", "good",
   "better", "top", "review", "price", "vs", "versus", "buy", "compare"]

/-- `self.sentence_words`. -/
def sentence_words : List String :=
  ["a", "an", "the", "of", "in", "for", "to", "with", "by",
   "is", "are", "this", "that", "these", "those"]

/-- `self.doc_ref_terms`. -/
def doc_ref_terms : List String :=
  ["page", "table", "figure", "section", "chapter", "version"]

/-- Early rejection 3: `any(term in cleaned.lower() for term in search_terms)`. -/
def hasSearchTermSub (low : List Char) : Bool :=
  search_terms.any (fun t => containsSub t.toList low)

/-- Early rejection 4: regex
match of page/table/figure/section/chapter/room, whitespace, then a
digit, at the start, case-insensitively. -/
def startsDocRef (l : List Char) : Bool :=
  let low := lowerList l
  ["page", "table", "figure", "section", "chapter", "room"].any (fun w =>
    let wl := w.toList
    wl.isPrefixOf low &&
    (let rest := low.drop wl.length
     let sp := rest.takeWhile pySpace
     !sp.isEmpty && ((rest.drop sp.length).getD 0 ' ').isDigit))

/-- Positive rule 4: `cleaned.upper().startswith(prefix)` for a known
part-number start. -/
def startsCommonPart (l : List Char) : Bool :=
  common_prefixes.any (fun w => w.toList.isPrefixOf (upperList l))

/-- Positive rule 5: regex match of 1 to 3 letters then 2 or more digits
at the start. -/
def letterThenDigits (l : List Char) : Bool :=
  [1, 2, 3].any (fun n =>
    ((l.take n).length == n) && (l.take n).all Char.isAlpha &&
    (((l.drop n).take 2).length == 2) && ((l.drop n).take 2).all Char.isDigit)

/-- Positive rule 7: regex match of a p/n:, part, model, item or no.
label, then 1+ whitespace-or-colon characters, then a letter or digit,
at the start, case-insensitively. -/
def startsLabel (l : List Char) : Bool :=
  let low := lowerList l
  ["p/n:", "part", "model", "item", "no."].any (fun w =>
    let wl := w.toList
    wl.isPrefixOf low &&
    (let rest := low.drop wl.length
     let sp := rest.takeWhile (fun c => pySpace c || c == ':')
     !sp.isEmpty &&
     (let c := (rest.drop sp.length).getD 0 ' '
      c.isAlpha || c.isDigit)))

/-- Two consecutive letters-then-digits groups starting at the head. -/
def twoGroupsAtStart (l : List Char) : Bool :=
  let a1 := l.takeWhile Char.isAlpha
  !a1.isEmpty &&
  (let r1 := l.drop a1.length
   let d1 := r1.takeWhile Char.isDigit
   !d1.isEmpty &&
   (let r2 := r1.drop d1.length
    let a2 := r2.takeWhile Char.isAlpha
    !a2.isEmpty &&
    (let r3 := r2.drop a2.length
     !(r3.takeWhile Char.isDigit).isEmpty)))

/-- Positive rule 8: regex search for two or more consecutive
letters-then-digits groups. -/
def hasRepeatingGroups (l : List Char) : Bool :=
  (List.range l.length).any (fun i => twoGroupsAtStart (l.drop i))

/-- Positive rule 9: regex search for a run of 3 or more digits. -/
def hasThreeDigitRun (l : List Char) : Bool :=
  (List.range l.length).any (fun i =>
    (((l.drop i).take 3).length == 3) && ((l.drop i).take 3).all Char.isDigit)

/-- Positive rule 10: regex search, anchored at the end, for 1+
alphanumerics followed by XL, AL, EU or a slash-size, case-insensitively:
equivalently, the lowered string ends in one of the two-character suffix
literals preceded by an alphanumeric character. -/
def hasPartSuffix (l : List Char) : Bool :=
  let low := lowerList l
  let n := low.length
  decide (3 ≤ n) &&
  (["xl", "al", "/s", "/m", "/l", "eu"].any (fun s => low.drop (n - 2) == s.toList)) &&
  (let c := low.getD (n - 3) ' '
   c.isAlpha || c.isDigit)

/-- Embedding of `PartNumberClassifier.is_part_number`. -/
def is_part_number (query : String) : Bool :=
  if query.toList.isEmpty || (pyStrip query.toList).isEmpty then false
  else
    let cleaned := pyStrip query.toList
    let words := pySplit cleaned
    if !cleaned.any Char.isDigit then false
    else if cleaned.length < 4 then false
    else if decide (words.length > 2) && hasSearchTermSub (lowerList cleaned) then false
    else if startsDocRef cleaned then false
    else
      let score : Int :=
        (if cleaned.any Char.isAlpha && cleaned.any Char.isDigit then 3 else 0)
        + (if decide (5 ≤ cleaned.length) && decide (cleaned.length ≤ 16) then 2
           else if decide (16 < cleaned.length) && decide (cleaned.length ≤ 20) then 1 else 0)
        + (if cleaned.any (fun c => c == '-' || c == '.' || c == '/') then 2 else 0)
        + (if startsCommonPart cleaned then 3 else 0)
        + (if letterThenDigits cleaned then 2 else 0)
        + (if (cleaned.headD ' ').isAlpha then 1 else 0)
        + (if startsLabel cleaned then 2 else 0)
        + (if hasRepeatingGroups cleaned then 2 else 0)
        + (if hasThreeDigitRun cleaned then 1 else 0)
        + (if hasPartSuffix cleaned then 1 else 0)
        - (if hasWordFrom search_terms (lowerList cleaned) then 4 else 0)
        - (if decide (4 ≤ words.length) then 4
           else if decide (words.length = 3) then 2 else 0)
        - (if hasWordFrom sentence_words (lowerList cleaned) then 3 else 0)
        - (if hasWordFrom consumer_products (lowerList cleaned) then 3 else 0)
        - (if hasWordFrom doc_ref_terms (lowerList cleaned) then 3 else 0)
      decide (4 ≤ score)

/-- The dictionary returned by `explain_classification`, with the keys
the claims need: the early-rejection dicts carry no score and a single
explanation string; the scored dicts carry the score, the rule
explanations in evaluation order, and the decision text. -/
structure ExplainOutput where
  is_part_number : Bool
  score : Option Int
  explanation : List String
  decision : Option String
deriving DecidableEq

/-- Embedding of `PartNumberClassifier.explain_classification`, its rule
chain repeated from the source (the duplication of the logic across the
two Python methods is the point of the refinement claim). -/
def explain_classification (query : String) : ExplainOutput :=
  if query.toList.isEmpty || (pyStrip query.toList).isEmpty then
    ⟨false, none, ["Empty query"], none⟩
  else
    let cleaned := pyStrip query.toList
    let words := pySplit cleaned
    if !cleaned.any Char.isDigit then
      ⟨false, none, ["Rejected: Contains no digits"], none⟩
    else if cleaned.length < 4 then
      ⟨false, none, ["Rejected: Too short (< 4 characters)"], none⟩
    else if decide (words.length > 2) && hasSearchTermSub (lowerList cleaned) then
      ⟨false, none, ["Rejected: Multi-word query with search terms"], none⟩
    else if startsDocRef cleaned then
      ⟨false, none, ["Rejected: Starts with document reference term"], none⟩
    else
      let score : Int :=
        (if cleaned.any Char.isAlpha && cleaned.any Char.isDigit then 3 else 0)
        + (if decide (5 ≤ cleaned.length) && decide (cleaned.length ≤ 16) then 2
           else if decide (16 < cleaned.length) && decide (cleaned.length ≤ 20) then 1 else 0)
        + (if cleaned.any (fun c => c == '-' || c == '.' || c == '/') then 2 else 0)
        + (if startsCommonPart cleaned then 3 else 0)
        + (if letterThenDigits cleaned then 2 else 0)
        + (if (cleaned.headD ' ').isAlpha then 1 else 0)
        + (if startsLabel cleaned then 2 else 0)
        + (if hasRepeatingGroups cleaned then 2 else 0)
        + (if hasThreeDigitRun cleaned then 1 else 0)
        + (if hasPartSuffix cleaned then 1 else 0)
        - (if hasWordFrom search_terms (lowerList cleaned) then 4 else 0)
        - (if decide (4 ≤ words.length) then 4
           else if decide (words.length = 3) then 2 else 0)
        - (if hasWordFrom sentence_words (lowerList cleaned) then 3 else 0)
        - (if hasWordFrom consumer_products (lowerList cleaned) then 3 else 0)
        - (if hasWordFrom doc_ref_terms (lowerList cleaned) then 3 else 0)
      let explanation : List String :=
        (if cleaned.any Char.isAlpha && cleaned.any Char.isDigit then
          ["+3: Contains both letters and numbers"] else [])
        ++ (if decide (5 ≤ cleaned.length) && decide (cleaned.length ≤ 16) then
              ["+2: Length is in typical part number range (5-16)"]
            else if decide (16 < cleaned.length) && decide (cleaned.length ≤ 20) then
              ["+1: Length is in acceptable part number range (17-20)"] else [])
        ++ (if cleaned.any (fun c => c == '-' || c == '.' || c == '/') then
              ["+2: Contains a dash, dot or specific separator"] else [])
        ++ (if startsCommonPart cleaned then
              ["+3: Starts with a common part number prefix"] else [])
        ++ (if letterThenDigits cleaned then
              ["+2: Has a typical part number pattern structure (letters then numbers)"] else [])
        ++ (if (cleaned.headD ' ').isAlpha then ["+1: Starts with letters"] else [])
        ++ (if startsLabel cleaned then
              ["+2: Begins with specific part number prefix"] else [])
        ++ (if hasRepeatingGroups cleaned then
              ["+2: Has repeating alpha-numeric patterns"] else [])
        ++ (if hasThreeDigitRun cleaned then
              ["+1: Contains numbers with 3+ digits"] else [])
        ++ (if hasPartSuffix cleaned then
              ["+1: Has a specific suffix (XL, AL, etc.)"] else [])
        ++ (if hasWordFrom search_terms (lowerList cleaned) then
              ["-4: Contains typical search terms"] else [])
        ++ (if decide (4 ≤ words.length) then ["-4: Has 4+ words separated by spaces"]
            else if decide (words.length = 3) then
              ["-2: Has 3 words separated by spaces"] else [])
        ++ (if hasWordFrom sentence_words (lowerList cleaned) then
              ["-3: Contains words that look like a sentence"] else [])
        ++ (if hasWordFrom consumer_products (lowerList cleaned) then
              ["-3: Contains a consumer product name"] else [])
        ++ (if hasWordFrom doc_ref_terms (lowerList cleaned) then
              ["-3: Contains common document references"] else [])
      ⟨decide (4 ≤ score), some score, explanation,
        some (if decide (4 ≤ score) then "IS A PART NUMBER" else "IS NOT A PART NUMBER")⟩

/-- C9: the classifier boundary cases: the empty string, a 3-character
digitless string and a natural-language question are rejected, while the
part number RAD64002019 is accepted. -/
theorem classifier_boundary_cases :
    is_part_number "" = false ∧
    is_part_number "abc" = false ∧
    is_part_number "RAD64002019" = true ∧
    is_part_number "how much is the best torch" = false := by
  refine ⟨?_, ?_, ?_, ?_⟩ <;> decide

/-- C10: for every query string the boolean classifier and the
explanation variant, whose rule chains are duplicated in the source,
reach the same decision. -/
theorem classifier_explain_agreement (query : String) :
    is_part_number query = (explain_classification query).is_part_number := by
  unfold is_part_number explain_classification
  dsimp only
  simp only [apply_ite ExplainOutput.is_part_number]

end VectorSearchApp
